import Mathlib

/-!
Verification development for the polymer entity-component runtime
(transform system scene graph, PBR render system, cascaded shadows).

The C++ source is shallowly embedded:

* `std::unordered_map<entity, T>` becomes an association list
  `List (entity × T)` with `mlookup` (= `find`), `minsert`
  (= `operator[]` followed by assignment) and `merase` (= `erase`);
  `opIndexSG` / `opIndexWT` model bare `operator[]`, which
  default-inserts a value-initialized record when the key is absent.
* the recursive members `recalculate_world_transform` and
  `destroy_recursive` recurse along `children` lists; the embedding
  gives them an explicit fuel argument.  The public operations pass
  `opFuel`, one more than the map size, which is enough fuel whenever
  the scene graph is a forest (the situation in which the C++
  recursion terminates at all).
* `polymer::Pose` and its composition `operator*` live in
  math-core.hpp, which is not part of the source set.  Modelled from
  the spec: a pose is a position plus an orientation; we restrict to
  identity-orientation poses (pure translations), for which any
  rigid-pose composition law degenerates to componentwise addition of
  the position vectors.  Positions use exact integers.
-/

namespace Polymer

/-- Entity: an opaque integer identifier (C++ `entity`, a 64-bit int). -/
abbrev entity := Nat

/-- Modelled from the spec: `kInvalidEntity` is a reserved sentinel
("0 or max, implementation picks one", spec section 3); we pick 0.
Declared in polymer-ecs.hpp, which is not in the source set. -/
def kInvalidEntity : entity := 0

/-- Modelled from the spec: `kAllEntities` is the "destroy all" sentinel
used by `destroy_entity` broadcasts (spec section 4.2); it is distinct
from every ordinary entity id and from `kInvalidEntity`; we pick the
maximal 64-bit value.  Declared in polymer-ecs.hpp. -/
def kAllEntities : entity := 18446744073709551615

/-- Modelled from the spec: `polymer::Pose` restricted to
identity-orientation poses, i.e. pure translations, with exact integer
coordinates.  `comp` models the C++ `operator*` on poses, which for
translations is componentwise addition. -/
structure Pose where
  x : Int
  y : Int
  z : Int
deriving DecidableEq, Repr

/-- Pose composition (`a * b` in the C++ source) for translations. -/
def Pose.comp (a b : Pose) : Pose := ⟨a.x + b.x, a.y + b.y, a.z + b.z⟩

/-- The default-constructed pose (identity translation). -/
def Pose.id : Pose := ⟨0, 0, 0⟩

/-- `polymer::float3`, used for `local_scale`; carried but never
interpreted by any claim, with exact integer coordinates. -/
structure Float3 where
  x : Int
  y : Int
  z : Int
deriving DecidableEq, Repr

def Float3.zero : Float3 := ⟨0, 0, 0⟩

/-! ## Association-list maps (model of `std::unordered_map`) -/

/-- `find` on an association list (model of `unordered_map::find`). -/
def mlookup {α : Type} : List (entity × α) → entity → Option α
  | [], _ => none
  | (k, v) :: t, e => if k = e then some v else mlookup t e

/-- Insert-or-replace (model of `map[k] = v`). -/
def minsert {α : Type} : List (entity × α) → entity → α → List (entity × α)
  | [], e, v => [(e, v)]
  | (k, w) :: t, e, v => if k = e then (k, v) :: t else (k, w) :: minsert t e v

/-- Remove a key (model of `unordered_map::erase`). -/
def merase {α : Type} : List (entity × α) → entity → List (entity × α)
  | [], _ => []
  | (k, w) :: t, e => if k = e then merase t e else (k, w) :: merase t e

/-! ## Transform-system component records (engine-ecs.cpp) -/

/-- `scene_graph_component`: per-entity local pose, local scale, weak
parent reference and an ordered list of weak child references. -/
structure scene_graph_component where
  self : entity
  local_pose : Pose
  local_scale : Float3
  parent : entity
  children : List entity
deriving DecidableEq, Repr

/-- Value-initialized `scene_graph_component()` (what `operator[]`
default-inserts): default base entity, identity pose, zero scale,
`kInvalidEntity` parent, empty children. -/
def sgDefault : scene_graph_component :=
  ⟨0, Pose.id, Float3.zero, kInvalidEntity, []⟩

/-- `world_transform_component`: per-entity cached world-space pose. -/
structure world_transform_component where
  self : entity
  world_pose : Pose
deriving DecidableEq, Repr

/-- Value-initialized `world_transform_component()`. -/
def wtDefault : world_transform_component := ⟨0, Pose.id⟩

/-- The state of `transform_system`: its two private unordered maps. -/
structure transform_system where
  scene_graph_transforms : List (entity × scene_graph_component)
  world_transforms : List (entity × world_transform_component)
deriving DecidableEq, Repr

namespace transform_system

/-- `scene_graph_transforms[e]`: return the present record, or
default-insert one (C++ `unordered_map::operator[]`). -/
def opIndexSG (m : List (entity × scene_graph_component)) (e : entity) :
    scene_graph_component × List (entity × scene_graph_component) :=
  match mlookup m e with
  | some v => (v, m)
  | none => (sgDefault, minsert m e sgDefault)

/-- `world_transforms[e]`: return the present record, or
default-insert one. -/
def opIndexWT (m : List (entity × world_transform_component)) (e : entity) :
    world_transform_component × List (entity × world_transform_component) :=
  match mlookup m e with
  | some v => (v, m)
  | none => (wtDefault, minsert m e wtDefault)

/-- `transform_system::recalculate_world_transform` (engine-ecs.cpp
lines 153-172), with explicit fuel for the recursion over `children`.
If the node has a parent, `world_pose = local_pose * parent's
local_pose` (note: the parent's LOCAL pose, exactly as in the source);
otherwise the node is its own world pose.  Then each child is
recomputed. -/
def recalculate_world_transform : Nat → transform_system → entity → transform_system
  | 0, s, _ => s
  | fuel + 1, s, child =>
    let p1 := opIndexSG s.scene_graph_transforms child
    let node := p1.1
    let p2 := opIndexWT s.world_transforms child
    let w := p2.1
    let br :=
      if node.parent ≠ kInvalidEntity then
        let p3 := opIndexSG p1.2 node.parent
        (p3.2, node.local_pose.comp p3.1.local_pose)
      else (p1.2, node.local_pose)
    let wt2 := minsert p2.2 child { w with world_pose := br.2 }
    let s1 : transform_system := ⟨br.1, wt2⟩
    node.children.foldl (fun acc c => recalculate_world_transform fuel acc c) s1

/-- `transform_system::destroy_recursive` (engine-ecs.cpp lines
174-184), with explicit fuel: recurse over the children, then erase
the world transform and the scene-graph record of the entity itself. -/
def destroy_recursive : Nat → transform_system → entity → transform_system
  | 0, s, _ => s
  | fuel + 1, s, child =>
    let p1 := opIndexSG s.scene_graph_transforms child
    let node := p1.1
    let s1 : transform_system := ⟨p1.2, s.world_transforms⟩
    let s2 := node.children.foldl (fun acc c => destroy_recursive fuel acc c) s1
    ⟨merase s2.scene_graph_transforms child, merase s2.world_transforms child⟩

/-- Fuel passed by the public operations: one more than the number of
stored scene-graph records, enough for any forest-shaped recursion. -/
def opFuel (s : transform_system) : Nat := s.scene_graph_transforms.length + 1

/-- `transform_system::has_transform`. -/
def has_transform (s : transform_system) (e : entity) : Bool :=
  (mlookup s.scene_graph_transforms e).isSome

/-- `transform_system::create(entity, Pose, float3)` (lines 198-210):
unconditionally (re)initializes both records and recomputes. -/
def create (s : transform_system) (e : entity) (local_pose : Pose)
    (local_scale : Float3) : transform_system × Bool :=
  let sg1 := minsert s.scene_graph_transforms e
    ⟨e, local_pose, local_scale, kInvalidEntity, []⟩
  let wt1 := minsert s.world_transforms e ⟨e, Pose.id⟩
  let s1 : transform_system := ⟨sg1, wt1⟩
  (recalculate_world_transform (opFuel s1) s1 e, true)

/-- `transform_system::create(entity, poly_typeid, void*)` (line 196):
the type-erased overload is a stub returning `true` and storing
nothing, for every type id. -/
def create_typeid (s : transform_system) (_e : entity) (_hash : Nat) :
    transform_system × Bool :=
  (s, true)

/-- `transform_system::add_child` (lines 219-230).  Throws
`std::invalid_argument` (modelled with `Except.error`) on an invalid
sentinel or a missing transform; otherwise appends `child` to the
parent's children, sets the child's parent field and recomputes the
parent's subtree. -/
def add_child (s : transform_system) (parent child : entity) :
    Except String (transform_system × Bool) :=
  if parent = kInvalidEntity then .error "parent was invalid"
  else if child = kInvalidEntity then .error "child was invalid"
  else if ¬ has_transform s parent then .error "parent has no transform component"
  else if ¬ has_transform s child then .error "child has no transform component"
  else
    let p1 := opIndexSG s.scene_graph_transforms parent
    let sg1 := minsert p1.2 parent { p1.1 with children := p1.1.children ++ [child] }
    let p2 := opIndexSG sg1 child
    let sg2 := minsert p2.2 child { p2.1 with parent := parent }
    let s1 : transform_system := ⟨sg2, s.world_transforms⟩
    .ok (recalculate_world_transform (opFuel s1) s1 parent, true)

/-- `transform_system::get_local_transform` (lines 232-238). -/
def get_local_transform (s : transform_system) (e : entity) :
    Option scene_graph_component :=
  if e = kInvalidEntity then none
  else mlookup s.scene_graph_transforms e

/-- `transform_system::get_world_transform` (lines 240-246). -/
def get_world_transform (s : transform_system) (e : entity) :
    Option world_transform_component :=
  if e = kInvalidEntity then none
  else mlookup s.world_transforms e

/-- `transform_system::get_parent` (lines 248-258). -/
def get_parent (s : transform_system) (child : entity) : entity :=
  if child = kInvalidEntity then kInvalidEntity
  else
    match mlookup s.scene_graph_transforms child with
    | some rec' => if rec'.parent ≠ kInvalidEntity then rec'.parent else kInvalidEntity
    | none => kInvalidEntity

/-- `transform_system::remove_parent` (lines 260-270).  Note the C++
accesses `scene_graph_transforms[child]` with `operator[]`, which
default-inserts a record when the child is absent. -/
def remove_parent (s : transform_system) (child : entity) : transform_system :=
  let p1 := opIndexSG s.scene_graph_transforms child
  let child_node := p1.1
  if child_node.parent ≠ kInvalidEntity then
    let p2 := opIndexSG p1.2 child_node.parent
    let sg3 := minsert p2.2 child_node.parent
      { p2.1 with children := p2.1.children.filter (fun c => c ≠ child) }
    let cur := (mlookup sg3 child).getD sgDefault
    let sg4 := minsert sg3 child { cur with parent := kInvalidEntity }
    let s1 : transform_system := ⟨sg4, s.world_transforms⟩
    recalculate_world_transform (opFuel s1) s1 child
  else ⟨p1.2, s.world_transforms⟩

/-- `transform_system::destroy` (lines 272-277): throws on the invalid
sentinel or a missing transform, otherwise destroys the subtree. -/
def destroy (s : transform_system) (e : entity) : Except String transform_system :=
  if e = kInvalidEntity then .error "parent was invalid"
  else if ¬ has_transform s e then .error "no component exists for this entity"
  else .ok (destroy_recursive (opFuel s) s e)

end transform_system

/-! ## Component type identifiers

`POLYMER_SETUP_TYPEID` (polymer-typeid.hpp, not in the source set)
assigns each component type one stable process-wide id.  Modelled from
the spec: each concrete type maps to exactly one identifier; we fix
distinct naturals. -/

def physics_component_tid : Nat := 1
def render_component_tid : Nat := 2
def scene_graph_component_tid : Nat := 3
def world_transform_component_tid : Nat := 4
def mesh_component_tid : Nat := 5
def material_component_tid : Nat := 6
def point_light_component_tid : Nat := 7
def directional_light_component_tid : Nat := 8

/-! ## Example systems (engine-ecs.cpp lines 82-116) -/

/-- `physics_component`: base entity plus three float values
(carried as exact integers). -/
structure physics_component where
  self : entity
  value1 : Int
  value2 : Int
  value3 : Int
deriving DecidableEq, Repr

/-- `render_component`: same shape as `physics_component`. -/
structure render_component where
  self : entity
  value1 : Int
  value2 : Int
  value3 : Int
deriving DecidableEq, Repr

/-- State of `ex_system_one`: its single component map. -/
structure ex_system_one where
  components : List (entity × physics_component)
deriving DecidableEq, Repr

/-- `ex_system_one::create` (lines 87-94): reject a mismatched type
hash with `false`; otherwise copy the (type-erased) payload into the
map and return `true`.  The C++ constructs `physics_component(e)` and
then assigns `*static_cast<physics_component*>(data)` over it, so the
stored record is exactly the payload. -/
def ex_system_one.create (s : ex_system_one) (e : entity) (hash : Nat)
    (data : physics_component) : ex_system_one × Bool :=
  if hash ≠ physics_component_tid then (s, false)
  else (⟨minsert s.components e data⟩, true)

/-- State of `ex_system_two`. -/
structure ex_system_two where
  components : List (entity × render_component)
deriving DecidableEq, Repr

/-- `ex_system_two::create` (lines 105-112). -/
def ex_system_two.create (s : ex_system_two) (e : entity) (hash : Nat)
    (data : render_component) : ex_system_two × Bool :=
  if hash ≠ render_component_tid then (s, false)
  else (⟨minsert s.components e data⟩, true)

/-! ## PBR render system (part_000) -/

/-- `renderer_settings` (system-renderer-pbr.hpp): the recognized
configuration surface consumed by the constructor and the queries. -/
structure renderer_settings where
  renderSizeX : Int
  renderSizeY : Int
  cameraCount : Nat
  msaaSamples : Nat
  shadowsEnabled : Bool
  useDepthPrepass : Bool
  tonemapEnabled : Bool
  performanceProfiling : Bool
deriving DecidableEq, Repr

/-- Placeholder component payloads held by the render system's four
maps; the claims only observe map membership, never the payloads. -/
structure mesh_component where
  self : entity
deriving DecidableEq, Repr

structure material_component where
  self : entity
deriving DecidableEq, Repr

structure point_light_component where
  self : entity
deriving DecidableEq, Repr

structure directional_light_component where
  self : entity
deriving DecidableEq, Repr

/-- The state of `pbr_render_system` observed by the claims: the
immutable settings, the per-camera GPU texture vectors (ids), and the
four component maps. -/
structure pbr_render_system where
  settings : renderer_settings
  eyeTextures : List Nat
  eyeDepthTextures : List Nat
  postTextures : List Nat
  meshes : List (entity × mesh_component)
  materials : List (entity × material_component)
  point_lights : List (entity × point_light_component)
  directional_lights : List (entity × directional_light_component)
deriving DecidableEq, Repr

namespace pbr_render_system

/-- Result of a texture query: whether the `assert` passed, and the
vector element the code goes on to read (`none` when the index is out
of bounds of the vector, i.e. undefined behaviour in the C++). -/
structure texture_query where
  assertOk : Bool
  value : Option Nat
deriving DecidableEq, Repr

/-- `pbr_render_system::get_color_texture` (part_000 lines 156-164):
`assert(idx <= settings.cameraCount)`, then `postTextures[idx]` when
tonemapping is enabled, else `eyeTextures[idx]`. -/
def get_color_texture (r : pbr_render_system) (idx : Nat) : texture_query :=
  ⟨decide (idx ≤ r.settings.cameraCount),
   if r.settings.tonemapEnabled then r.postTextures.get? idx
   else r.eyeTextures.get? idx⟩

/-- `pbr_render_system::get_depth_texture` (lines 166-170). -/
def get_depth_texture (r : pbr_render_system) (idx : Nat) : texture_query :=
  ⟨decide (idx ≤ r.settings.cameraCount), r.eyeDepthTextures.get? idx⟩

/-- `pbr_render_system::create` (lines 592-595): an unconditional
`return true`, storing nothing, for every type id. -/
def create (r : pbr_render_system) (_e : entity) (_type : Nat) :
    pbr_render_system × Bool :=
  (r, true)

/-- `pbr_render_system::destroy` (lines 597-606): only the
`kAllEntities` sentinel has an effect, clearing all four maps. -/
def destroy (r : pbr_render_system) (e : entity) : pbr_render_system :=
  if e = kAllEntities then
    { r with meshes := [], materials := [], point_lights := [],
             directional_lights := [] }
  else r

end pbr_render_system

/-! ## Render queue ordering (part_000 lines 482-519)

`render_frame` pushes every entity of `scene.render_set` into a
`std::priority_queue` ordered by `materialSortFunc` and then pops it
into the flat `materialRenderList`.  A priority queue pops maxima
first, so draining it yields a sequence sorted by the negation of the
comparator; since `materialSortFunc` is a strict weak order this is
exactly a sort by `fun a b => materialSortFunc a b = false` (ties
between comparator-equivalent entities are unspecified in C++, and
every property below is tie-independent).  `matId e` models
`materials[e].material.get()->id()` and `dist e` the distance from the
culling view position to `e`'s world position (an exact-arithmetic
stand-in for the float distance, which only enters through
comparisons). -/

/-- `materialSortFunc` (lines 483-495): primary key material id with
`lid > rid`, secondary key distance with `lDist < rDist`. -/
def materialSortFunc (matId : entity → Nat) (dist : entity → ℚ)
    (lhs rhs : entity) : Bool :=
  if matId lhs ≠ matId rhs then decide (matId lhs > matId rhs)
  else decide (dist lhs < dist rhs)

/-- Popping order of the priority queue: `a` may precede `b` exactly
when `a` is not strictly less than `b` under `materialSortFunc`. -/
def popsBefore (matId : entity → Nat) (dist : entity → ℚ) (a b : entity) : Prop :=
  materialSortFunc matId dist a b = false

instance (matId : entity → Nat) (dist : entity → ℚ) :
    DecidableRel (popsBefore matId dist) := fun a b => by
  unfold popsBefore; infer_instance

/-- The flattened `materialRenderList`: the priority queue drained
max-first (modelled as a sort by `popsBefore`). -/
def materialRenderList (matId : entity → Nat) (dist : entity → ℚ)
    (render_set : List entity) : List entity :=
  List.insertionSort (popsBefore matId dist) render_set

/-! ## Stable cascaded shadows: split-plane computation
(part_000 lines 18-102)

`update_cascades` also produces view/projection/shadow matrices; the
claims only speak about the `splitPlanes` entries, which are computed
over the reals here (the C++ uses floats).  `NUM_CASCADES` and the
`splitLambda` member live in headers outside the source set, so both
stay parameters. -/

/-- `mix(a, b, t)` — linear interpolation, as used by the source. -/
noncomputable def mix (a b t : ℝ) : ℝ := a + (b - a) * t

/-- The linear split plane `near + (k/N)*(far - near)`. -/
noncomputable def linearSplit (near far : ℝ) (N : Nat) (k : Nat) : ℝ :=
  near + ((k : ℝ) / (N : ℝ)) * (far - near)

/-- The logarithmic split plane `near * pow(far/near, k/N)`. -/
noncomputable def logSplit (near far : ℝ) (N : Nat) (k : Nat) : ℝ :=
  near * (far / near) ^ (((k : ℝ)) / (N : ℝ))

/-- The blended split plane at index `k`. -/
noncomputable def splitAt (near far lam : ℝ) (N : Nat) (k : Nat) : ℝ :=
  mix (linearSplit near far N k) (logSplit near far N k) lam

/-- `splitNear` for cascade `C` (lines 33-34): the camera near for
cascade 0, the blended split otherwise. -/
noncomputable def splitNearC (near far lam : ℝ) (N : Nat) (C : Nat) : ℝ :=
  if 0 < C then splitAt near far lam N C else near

/-- `splitFar` for cascade `C` (lines 36-37): the camera far for the
last cascade, the blended split at `C+1` otherwise. -/
noncomputable def splitFarC (near far lam : ℝ) (N : Nat) (C : Nat) : ℝ :=
  if C < N - 1 then splitAt near far lam N (C + 1) else far

/-- The `splitPlanes` list produced by `update_cascades`: one
`(splitNear, splitFar)` pair per cascade `C < NUM_CASCADES`. -/
noncomputable def update_cascades_splitPlanes (near far lam : ℝ) (N : Nat) : List (ℝ × ℝ) :=
  (List.range N).map (fun C => (splitNearC near far lam N C, splitFarC near far lam N C))

/-! ## Scene-graph forests

The spec's structural invariant makes the parent/child graph a forest.
`STree` is an explicit finite tree of entities; `matchesB t g` states
that `t` is exactly the children-structure of the scene-graph map `g`
below `t.root`.  The theorems about `add_child` and `destroy`
quantify over such matched trees with no duplicate nodes — precisely
the forest-shaped states on which the C++ recursion terminates. -/

inductive STree where
  | node : entity → List STree → STree

/-- The entity at the root of the tree. -/
def STree.root : STree → entity
  | .node e _ => e

mutual
/-- All entities of the tree, root first. -/
def STree.nodes : STree → List entity
  | .node e kids => e :: STree.nodesList kids
/-- All entities of a list of trees, in order. -/
def STree.nodesList : List STree → List entity
  | [] => []
  | t :: ts => STree.nodes t ++ STree.nodesList ts
end

mutual
/-- Height of the tree (a single node has height 1). -/
def STree.height : STree → Nat
  | .node _ kids => STree.heightList kids + 1
def STree.heightList : List STree → Nat
  | [] => 0
  | t :: ts => max (STree.height t) (STree.heightList ts)
end

mutual
/-- Number of nodes, used as a structural-induction measure. -/
def STree.size : STree → Nat
  | .node _ kids => STree.sizeList kids + 1
def STree.sizeList : List STree → Nat
  | [] => 0
  | t :: ts => STree.size t + STree.sizeList ts
end

mutual
/-- `t` matches the scene-graph map `g`: every tree node is a stored
record whose `children` field is exactly the list of roots of its
subtrees. -/
def STree.matchesB : STree → List (entity × scene_graph_component) → Bool
  | .node e kids, g =>
    match mlookup g e with
    | some rec' =>
      decide (rec'.children = kids.map STree.root) && STree.matchesListB kids g
    | none => false
def STree.matchesListB : List STree → List (entity × scene_graph_component) → Bool
  | [], _ => true
  | t :: ts, g => STree.matchesB t g && STree.matchesListB ts g
end

/-- The world pose assigned to `x` by one step of
`recalculate_world_transform` over the scene-graph map `g`: the local
pose composed with the immediate parent's local pose when a parent is
set, the local pose alone otherwise. -/
def computePose (g : List (entity × scene_graph_component)) (x : entity) : Pose :=
  let n := (mlookup g x).getD sgDefault
  if n.parent ≠ kInvalidEntity then
    n.local_pose.comp (((mlookup g n.parent).getD sgDefault).local_pose)
  else n.local_pose

/-- Every entity of `vs` either has no parent set or a live parent in
`g` (so `recalculate_world_transform` performs no default-inserts). -/
def parentsLive (g : List (entity × scene_graph_component)) (vs : List entity) : Bool :=
  vs.all (fun x =>
    let n := (mlookup g x).getD sgDefault
    decide (n.parent = kInvalidEntity) || (mlookup g n.parent).isSome)

/-- Post-state specification of `destroy_recursive`: both records of
every entity of `vs` are gone, every other entity's records are
untouched. -/
def eraseSpec (s s' : transform_system) (vs : List entity) : Prop :=
  ∀ x : entity,
    (x ∈ vs → mlookup s'.scene_graph_transforms x = none ∧
      mlookup s'.world_transforms x = none) ∧
    (x ∉ vs → mlookup s'.scene_graph_transforms x = mlookup s.scene_graph_transforms x ∧
      mlookup s'.world_transforms x = mlookup s.world_transforms x)

/-- Post-state specification of `recalculate_world_transform`
relative to the (unchanging) scene-graph map `g`: the scene graph is
untouched, the cached world pose of every entity of `vs` is the pose
recomputed over `g`, and every other world transform is untouched. -/
def recalcSpecG (g : List (entity × scene_graph_component))
    (s s' : transform_system) (vs : List entity) : Prop :=
  s'.scene_graph_transforms = s.scene_graph_transforms ∧
  ∀ x : entity,
    (x ∈ vs → (mlookup s'.world_transforms x).map world_transform_component.world_pose =
      some (computePose g x)) ∧
    (x ∉ vs → mlookup s'.world_transforms x = mlookup s.world_transforms x)

/-- The scene-graph map after the two record updates performed by
`add_child(parent, child)` on records `prec`/`crec`: `child` appended
to the parent's children list, the child's parent field set. -/
def linkedSG (g : List (entity × scene_graph_component)) (parent child : entity)
    (prec crec : scene_graph_component) : List (entity × scene_graph_component) :=
  minsert (minsert g parent { prec with children := prec.children ++ [child] })
    child { crec with parent := parent }

/-! ## Concrete scenarios used by counterexamples and witnesses -/

/-- A freshly constructed transform system. -/
def emptyTS : transform_system := ⟨[], []⟩

/-- Scenario: `create(1, translate(0,5,0))`, `create(2, translate(1,0,0))`,
`create(3, translate(2,0,0))`, `add_child(1,2)`, `add_child(2,3)` —
a three-deep chain with the root translated. -/
def chain3_run : Option transform_system :=
  let s1 := (transform_system.create emptyTS 1 ⟨0, 5, 0⟩ Float3.zero).1
  let s2 := (transform_system.create s1 2 ⟨1, 0, 0⟩ Float3.zero).1
  let s3 := (transform_system.create s2 3 ⟨2, 0, 0⟩ Float3.zero).1
  match transform_system.add_child s3 1 2 with
  | .ok p =>
    match transform_system.add_child p.1 2 3 with
    | .ok q => some q.1
    | .error _ => none
  | .error _ => none

/-- Scenario: `create(1)`, `create(2)`, `add_child(1,2)`, then a second
`create(2)` on the already-present child. -/
def recreate_run : Option transform_system :=
  let s1 := (transform_system.create emptyTS 1 Pose.id Float3.zero).1
  let s2 := (transform_system.create s1 2 Pose.id Float3.zero).1
  match transform_system.add_child s2 1 2 with
  | .ok p => some (transform_system.create p.1 2 Pose.id Float3.zero).1
  | .error _ => none

/-- A render system configured for one camera with tonemapping, whose
texture vectors have (as the constructor guarantees) exactly
`cameraCount` entries. -/
def oneCamSys : pbr_render_system :=
  ⟨⟨1920, 1080, 1, 4, true, true, true, false⟩, [7], [9], [42], [], [], [], []⟩

/-- A render system with one entry in each component map. -/
def oneOfEachSys : pbr_render_system :=
  ⟨⟨1920, 1080, 1, 4, true, true, true, false⟩, [7], [9], [42],
   [(11, ⟨11⟩)], [(11, ⟨11⟩)], [(12, ⟨12⟩)], [(13, ⟨13⟩)]⟩

/-- A transform system holding the two-node chain 1 → 2 (entity 2 a
child of entity 1), with agreeing parent fields and children lists. -/
def twoNodeSys : transform_system :=
  ⟨[(1, ⟨1, Pose.id, Float3.zero, kInvalidEntity, [2]⟩),
    (2, ⟨2, ⟨1, 0, 0⟩, Float3.zero, 1, []⟩)],
   [(1, ⟨1, Pose.id⟩), (2, ⟨2, ⟨1, 0, 0⟩⟩)]⟩

/-- The subtree of `twoNodeSys` rooted at entity 1. -/
def twoNodeTree : STree := .node 1 [.node 2 []]

/-- A transform system holding two unrelated root entities 1 and 2. -/
def twoRootSys : transform_system :=
  ⟨[(1, ⟨1, ⟨0, 5, 0⟩, Float3.zero, kInvalidEntity, []⟩),
    (2, ⟨2, ⟨1, 0, 0⟩, Float3.zero, kInvalidEntity, []⟩)],
   [(1, ⟨1, ⟨0, 5, 0⟩⟩), (2, ⟨2, ⟨1, 0, 0⟩⟩)]⟩

/-- Two renderables sharing one material id. -/
def sameMatId : entity → Nat := fun _ => 7

/-- Entity 1 at distance 1 from the culling view, entity 2 at 5. -/
def twoDist : entity → ℚ := fun e => if e = 1 then 1 else 5

/-! # Theorems -/

theorem mlookup_minsert_self {α : Type} (m : List (entity × α)) (e : entity) (v : α) :
    mlookup (minsert m e v) e = some v := by
  induction m with
  | nil => simp [minsert, mlookup]
  | cons h t ih =>
    obtain ⟨k, w⟩ := h
    by_cases hk : k = e <;> simp [minsert, mlookup, hk, ih]

theorem mlookup_minsert_ne {α : Type} (m : List (entity × α)) (e e' : entity) (v : α)
    (h : e' ≠ e) : mlookup (minsert m e v) e' = mlookup m e' := by
  have h' : ¬ (e = e') := fun hh => h hh.symm
  induction m with
  | nil => simp [minsert, mlookup, h']
  | cons hd t ih =>
    obtain ⟨k, w⟩ := hd
    by_cases hk : k = e
    · subst hk
      simp [minsert, mlookup, h']
    · simp only [minsert, if_neg hk, mlookup]
      by_cases hk' : k = e' <;> simp [hk', ih]

theorem mlookup_merase_self {α : Type} (m : List (entity × α)) (e : entity) :
    mlookup (merase m e) e = none := by
  induction m with
  | nil => simp [merase, mlookup]
  | cons hd t ih =>
    obtain ⟨k, w⟩ := hd
    by_cases hk : k = e <;> simp [merase, mlookup, hk, ih]

theorem mlookup_merase_ne {α : Type} (m : List (entity × α)) (e e' : entity)
    (h : e' ≠ e) : mlookup (merase m e) e' = mlookup m e' := by
  have h' : ¬ (e = e') := fun hh => h hh.symm
  induction m with
  | nil => simp [merase, mlookup]
  | cons hd t ih =>
    obtain ⟨k, w⟩ := hd
    by_cases hk : k = e
    · subst hk
      simp [merase, mlookup, h', ih]
    · simp only [merase, if_neg hk, mlookup]
      by_cases hk' : k = e' <;> simp [hk', ih]

/-- Keys of an association list. -/
def mkeys {α : Type} (m : List (entity × α)) : List entity := m.map Prod.fst

theorem mem_mkeys_of_mlookup {α : Type} (m : List (entity × α)) (e : entity) {v : α}
    (h : mlookup m e = some v) : e ∈ mkeys m := by
  induction m with
  | nil => simp [mlookup] at h
  | cons hd t ih =>
    obtain ⟨k, w⟩ := hd
    by_cases hk : k = e
    · subst hk; simp [mkeys]
    · simp only [mlookup, if_neg hk] at h
      simp [mkeys] at ih ⊢
      exact Or.inr (ih h)

theorem length_minsert_of_isSome {α : Type} (m : List (entity × α)) (e : entity) (v : α)
    (h : (mlookup m e).isSome) : (minsert m e v).length = m.length := by
  induction m with
  | nil => simp [mlookup] at h
  | cons hd t ih =>
    obtain ⟨k, w⟩ := hd
    by_cases hk : k = e
    · simp [minsert, hk]
    · simp only [mlookup, if_neg hk] at h
      simp [minsert, hk, ih h]

/-! ## Scene-graph tree lemmas -/

theorem STree.size_node (e : entity) (kids : List STree) :
    (STree.node e kids).size = STree.sizeList kids + 1 := by
  rw [STree.size]

theorem STree.sizeList_cons (k : STree) (ks : List STree) :
    STree.sizeList (k :: ks) = k.size + STree.sizeList ks := by
  rw [STree.sizeList]

theorem STree.height_node (e : entity) (kids : List STree) :
    (STree.node e kids).height = STree.heightList kids + 1 := by
  rw [STree.height]

theorem STree.heightList_cons (k : STree) (ks : List STree) :
    STree.heightList (k :: ks) = max k.height (STree.heightList ks) := by
  rw [STree.heightList]

theorem STree.nodes_node (e : entity) (kids : List STree) :
    (STree.node e kids).nodes = e :: STree.nodesList kids := by
  rw [STree.nodes]

theorem STree.nodesList_nil : STree.nodesList [] = [] := by
  rw [STree.nodesList]

theorem STree.nodesList_cons (k : STree) (ks : List STree) :
    STree.nodesList (k :: ks) = k.nodes ++ STree.nodesList ks := by
  rw [STree.nodesList]

theorem STree.size_pos (t : STree) : 1 ≤ t.size := by
  cases t with
  | node e kids => rw [STree.size_node]; omega

theorem STree.height_pos (t : STree) : 1 ≤ t.height := by
  cases t with
  | node e kids => rw [STree.height_node]; omega

theorem STree.size_le_sizeList {k : STree} {ks : List STree} (h : k ∈ ks) :
    k.size ≤ STree.sizeList ks := by
  induction ks with
  | nil => cases h
  | cons a as ih =>
    rw [STree.sizeList_cons]
    rcases List.mem_cons.mp h with rfl | h'
    · omega
    · have := ih h'
      omega

theorem STree.mem_nodesList_of_mem {k : STree} {ks : List STree} {x : entity}
    (hk : k ∈ ks) (hx : x ∈ k.nodes) : x ∈ STree.nodesList ks := by
  induction ks with
  | nil => cases hk
  | cons a as ih =>
    rw [STree.nodesList_cons, List.mem_append]
    rcases List.mem_cons.mp hk with rfl | h'
    · exact Or.inl hx
    · exact Or.inr (ih h')

theorem STree.exists_mem_of_mem_nodesList {ks : List STree} {x : entity}
    (hx : x ∈ STree.nodesList ks) : ∃ k ∈ ks, x ∈ k.nodes := by
  induction ks with
  | nil => rw [STree.nodesList_nil] at hx; cases hx
  | cons a as ih =>
    rw [STree.nodesList_cons, List.mem_append] at hx
    rcases hx with h | h
    · exact ⟨a, List.mem_cons_self a as, h⟩
    · obtain ⟨k, hk, hxk⟩ := ih h
      exact ⟨k, List.mem_cons_of_mem a hk, hxk⟩

theorem STree.root_mem_nodes (t : STree) : t.root ∈ t.nodes := by
  cases t with
  | node e kids => rw [STree.nodes_node]; exact List.mem_cons_self _ _

theorem STree.matchesB_node_iff {e : entity} {kids : List STree}
    {g : List (entity × scene_graph_component)} :
    (STree.node e kids).matchesB g = true ↔
      ∃ rec', mlookup g e = some rec' ∧ rec'.children = kids.map STree.root ∧
        STree.matchesListB kids g = true := by
  rw [STree.matchesB]
  cases h : mlookup g e with
  | none => simp
  | some rec' => simp [Bool.and_eq_true, decide_eq_true_eq]

theorem STree.matchesListB_nil_iff {g : List (entity × scene_graph_component)} :
    STree.matchesListB [] g = true := by
  rw [STree.matchesListB]

theorem STree.matchesListB_cons_iff {k : STree} {ks : List STree}
    {g : List (entity × scene_graph_component)} :
    STree.matchesListB (k :: ks) g = true ↔
      (k.matchesB g = true ∧ STree.matchesListB ks g = true) := by
  rw [STree.matchesListB]
  exact Bool.and_eq_true_iff

theorem STree.matchesB_of_mem {k : STree} {ks : List STree}
    {g : List (entity × scene_graph_component)} (hk : k ∈ ks)
    (hm : STree.matchesListB ks g = true) : k.matchesB g = true := by
  induction ks with
  | nil => cases hk
  | cons a as ih =>
    rw [STree.matchesListB_cons_iff] at hm
    rcases List.mem_cons.mp hk with rfl | h'
    · exact hm.1
    · exact ih h' hm.2

theorem STree.matchesB_live {t : STree} {g : List (entity × scene_graph_component)}
    (hm : t.matchesB g = true) : ∀ x ∈ t.nodes, (mlookup g x).isSome := by
  have H : ∀ (n : Nat) (t : STree) (g : List (entity × scene_graph_component)),
      t.size ≤ n → t.matchesB g = true → ∀ x ∈ t.nodes, (mlookup g x).isSome := by
    intro n
    induction n with
    | zero =>
      intro t g hsz _
      exact absurd hsz (by have := STree.size_pos t; omega)
    | succ n ih =>
      intro t g hsz hmt x hx
      cases t with
      | node e kids =>
        rw [STree.matchesB_node_iff] at hmt
        obtain ⟨rec', hlook, _, hkids⟩ := hmt
        rw [STree.nodes_node] at hx
        rcases List.mem_cons.mp hx with rfl | hx'
        · simp [hlook]
        · obtain ⟨k, hk, hxk⟩ := STree.exists_mem_of_mem_nodesList hx'
          have hsk : k.size ≤ n := by
            have h1 := STree.size_le_sizeList hk
            rw [STree.size_node] at hsz
            omega
          exact ih k g hsk (STree.matchesB_of_mem hk hkids) x hxk
  exact H t.size t g le_rfl hm

theorem STree.matchesB_congr {t : STree} {g g' : List (entity × scene_graph_component)}
    (hcong : ∀ x ∈ t.nodes, mlookup g' x = mlookup g x)
    (hm : t.matchesB g = true) : t.matchesB g' = true := by
  have H : ∀ (n : Nat) (t : STree) (g g' : List (entity × scene_graph_component)),
      t.size ≤ n → (∀ x ∈ t.nodes, mlookup g' x = mlookup g x) →
      t.matchesB g = true → t.matchesB g' = true := by
    intro n
    induction n with
    | zero =>
      intro t g g' hsz _ _
      exact absurd hsz (by have := STree.size_pos t; omega)
    | succ n ih =>
      intro t g g' hsz hcg hmt
      cases t with
      | node e kids =>
        rw [STree.matchesB_node_iff] at hmt ⊢
        obtain ⟨rec', hlook, hch, hkids⟩ := hmt
        refine ⟨rec', ?_, hch, ?_⟩
        · rw [hcg e (by rw [STree.nodes_node]; exact List.mem_cons_self _ _)]
          exact hlook
        · have hsub : ∀ ks : List STree, STree.sizeList ks ≤ n →
              (∀ k ∈ ks, k ∈ kids) → STree.matchesListB ks g = true →
              STree.matchesListB ks g' = true := by
            intro ks
            induction ks with
            | nil => intro _ _ _; exact STree.matchesListB_nil_iff
            | cons k ks ihks =>
              intro hsz' hmem hm'
              rw [STree.matchesListB_cons_iff] at hm' ⊢
              rw [STree.sizeList_cons] at hsz'
              refine ⟨?_, ?_⟩
              · refine ih k g g' (by have := STree.size_pos k; omega) ?_ hm'.1
                intro x hxk
                refine hcg x ?_
                rw [STree.nodes_node]
                exact List.mem_cons_of_mem _
                  (STree.mem_nodesList_of_mem (hmem k (List.mem_cons_self _ _)) hxk)
              · exact ihks (by omega) (fun k' hk' => hmem k' (List.mem_cons_of_mem _ hk')) hm'.2
          refine hsub kids ?_ (fun _ h => h) hkids
          rw [STree.size_node] at hsz
          omega
  exact H t.size t g g' le_rfl hcong hm

theorem STree.height_le_nodes_length (t : STree) : t.height ≤ t.nodes.length := by
  have H : ∀ (n : Nat) (t : STree), t.size ≤ n → t.height ≤ t.nodes.length := by
    intro n
    induction n with
    | zero =>
      intro t hsz
      exact absurd hsz (by have := STree.size_pos t; omega)
    | succ n ih =>
      intro t hsz
      cases t with
      | node e kids =>
        rw [STree.height_node, STree.nodes_node, List.length_cons]
        rw [STree.size_node] at hsz
        have hsub : ∀ ks : List STree, STree.sizeList ks ≤ n →
            STree.heightList ks ≤ (STree.nodesList ks).length := by
          intro ks
          induction ks with
          | nil => intro _; rw [STree.heightList, STree.nodesList_nil]; simp
          | cons k ks ihks =>
            intro hsz'
            rw [STree.heightList_cons, STree.nodesList_cons, List.length_append]
            rw [STree.sizeList_cons] at hsz'
            have h1 : k.height ≤ k.nodes.length :=
              ih k (by have := STree.size_pos k; omega)
            have h2 : STree.heightList ks ≤ (STree.nodesList ks).length :=
              ihks (by omega)
            omega
        have := hsub kids (by omega)
        omega
  exact H t.size t le_rfl

theorem STree.nodes_length_le_map_length {t : STree}
    {g : List (entity × scene_graph_component)}
    (hm : t.matchesB g = true) (hnd : t.nodes.Nodup) :
    t.nodes.length ≤ g.length := by
  have hsub : t.nodes ⊆ mkeys g := by
    intro x hx
    obtain ⟨v, hv⟩ := Option.isSome_iff_exists.mp (STree.matchesB_live hm x hx)
    exact mem_mkeys_of_mlookup g x hv
  calc t.nodes.length ≤ (mkeys g).length :=
        (List.subperm_of_subset hnd hsub).length_le
    _ = g.length := by simp [mkeys]

theorem STree.height_le_opFuel {t : STree} {s : transform_system}
    (hm : t.matchesB s.scene_graph_transforms = true) (hnd : t.nodes.Nodup) :
    t.height ≤ transform_system.opFuel s := by
  have h1 := STree.height_le_nodes_length t
  have h2 := STree.nodes_length_le_map_length hm hnd
  unfold transform_system.opFuel
  omega

theorem STree.matchesListB_congr {ks : List STree}
    {g g' : List (entity × scene_graph_component)}
    (hcong : ∀ x ∈ STree.nodesList ks, mlookup g' x = mlookup g x)
    (hm : STree.matchesListB ks g = true) : STree.matchesListB ks g' = true := by
  induction ks with
  | nil => exact STree.matchesListB_nil_iff
  | cons k ks ih =>
    rw [STree.matchesListB_cons_iff] at hm ⊢
    rw [STree.nodesList_cons] at hcong
    exact ⟨STree.matchesB_congr
        (fun x hx => hcong x (List.mem_append.mpr (Or.inl hx))) hm.1,
      ih (fun x hx => hcong x (List.mem_append.mpr (Or.inr hx))) hm.2⟩

/-! ## destroy_recursive on a matched forest -/

theorem eraseSpec_nil (s : transform_system) : eraseSpec s s [] := by
  intro x
  exact ⟨fun h => absurd h (List.not_mem_nil x), fun _ => ⟨rfl, rfl⟩⟩

theorem eraseSpec_trans {s1 s2 s3 : transform_system} {vs1 vs2 : List entity}
    (h1 : eraseSpec s1 s2 vs1) (h2 : eraseSpec s2 s3 vs2) :
    eraseSpec s1 s3 (vs1 ++ vs2) := by
  intro x
  constructor
  · intro hx
    by_cases h2x : x ∈ vs2
    · exact (h2 x).1 h2x
    · have hx1 : x ∈ vs1 := by
        rcases List.mem_append.mp hx with h | h
        · exact h
        · exact absurd h h2x
      have e2 := (h2 x).2 h2x
      have e1 := (h1 x).1 hx1
      exact ⟨e2.1.trans e1.1, e2.2.trans e1.2⟩
  · intro hx
    have hx1 : x ∉ vs1 := fun h => hx (List.mem_append.mpr (Or.inl h))
    have hx2 : x ∉ vs2 := fun h => hx (List.mem_append.mpr (Or.inr h))
    have e1 := (h1 x).2 hx1
    have e2 := (h2 x).2 hx2
    exact ⟨e2.1.trans e1.1, e2.2.trans e1.2⟩

theorem eraseSpec_congr {s s' : transform_system} {vs vs' : List entity}
    (hiff : ∀ x, x ∈ vs ↔ x ∈ vs') (h : eraseSpec s s' vs) : eraseSpec s s' vs' := by
  intro x
  exact ⟨fun hx => (h x).1 ((hiff x).mpr hx),
    fun hx => (h x).2 (fun hh => hx ((hiff x).mp hh))⟩

theorem eraseSpec_erase (s2 : transform_system) (e : entity) :
    eraseSpec s2
      ⟨merase s2.scene_graph_transforms e, merase s2.world_transforms e⟩ [e] := by
  intro x
  constructor
  · intro hx
    have hxe : x = e := by simpa using hx
    subst hxe
    exact ⟨mlookup_merase_self _ _, mlookup_merase_self _ _⟩
  · intro hx
    have hxe : x ≠ e := by simpa using hx
    exact ⟨mlookup_merase_ne _ _ _ hxe, mlookup_merase_ne _ _ _ hxe⟩

theorem destroy_recursive_succ {fuel : Nat} {s : transform_system} {e : entity}
    {rec' : scene_graph_component}
    (hlook : mlookup s.scene_graph_transforms e = some rec') :
    transform_system.destroy_recursive (fuel + 1) s e =
      ⟨merase ((rec'.children.foldl
          (fun acc c => transform_system.destroy_recursive fuel acc c) s).scene_graph_transforms) e,
       merase ((rec'.children.foldl
          (fun acc c => transform_system.destroy_recursive fuel acc c) s).world_transforms) e⟩ := by
  conv_lhs => rw [transform_system.destroy_recursive]
  simp only [transform_system.opIndexSG, hlook]

/-- Destroying the root of a matched, duplicate-free subtree with
enough fuel erases exactly the records of the subtree's entities. -/
theorem destroy_tree : ∀ (fuel : Nat) (t : STree) (s : transform_system),
    t.matchesB s.scene_graph_transforms = true →
    t.nodes.Nodup → t.height ≤ fuel →
    eraseSpec s (transform_system.destroy_recursive fuel s t.root) t.nodes := by
  intro fuel
  induction fuel with
  | zero =>
    intro t s _ _ hh
    exact absurd hh (by have := STree.height_pos t; omega)
  | succ n ih =>
    intro t s hm hnd hh
    cases t with
    | node e kids =>
      rw [STree.matchesB_node_iff] at hm
      obtain ⟨rec', hlook, hch, hkids⟩ := hm
      rw [STree.nodes_node] at hnd
      have hnd' := List.nodup_cons.mp hnd
      rw [STree.height_node] at hh
      have hfold : ∀ (ks : List STree) (s0 : transform_system),
          STree.matchesListB ks s0.scene_graph_transforms = true →
          (STree.nodesList ks).Nodup →
          STree.heightList ks ≤ n →
          eraseSpec s0 ((ks.map STree.root).foldl
            (fun acc c => transform_system.destroy_recursive n acc c) s0)
            (STree.nodesList ks) := by
        intro ks
        induction ks with
        | nil =>
          intro s0 _ _ _
          rw [STree.nodesList_nil]
          simpa using eraseSpec_nil s0
        | cons k ks ihks =>
          intro s0 hm0 hnd0 hh0
          rw [List.map_cons, List.foldl_cons]
          rw [STree.nodesList_cons] at hnd0 ⊢
          rw [STree.matchesListB_cons_iff] at hm0
          rw [STree.heightList_cons] at hh0
          have hna := List.nodup_append.mp hnd0
          have h1 : eraseSpec s0 (transform_system.destroy_recursive n s0 k.root) k.nodes :=
            ih k s0 hm0.1 hna.1 (by omega)
          have hcong : ∀ x ∈ STree.nodesList ks,
              mlookup (transform_system.destroy_recursive n s0 k.root).scene_graph_transforms x =
                mlookup s0.scene_graph_transforms x := by
            intro x hx
            have hxk : x ∉ k.nodes := fun hmem => hna.2.2 hmem hx
            exact ((h1 x).2 hxk).1
          have hm1 : STree.matchesListB ks
              (transform_system.destroy_recursive n s0 k.root).scene_graph_transforms = true :=
            STree.matchesListB_congr hcong hm0.2
          have h2 := ihks (transform_system.destroy_recursive n s0 k.root) hm1 hna.2.1 (by omega)
          exact eraseSpec_trans h1 h2
      have h2 := hfold kids s hkids hnd'.2 (by omega)
      have hroot : (STree.node e kids).root = e := rfl
      rw [hroot, destroy_recursive_succ hlook, hch]
      refine eraseSpec_congr ?_ (eraseSpec_trans h2 (eraseSpec_erase _ e))
      intro x
      rw [STree.nodes_node]
      simp [List.mem_append, or_comm]

/-! ## recalculate_world_transform on a matched forest -/

theorem recalcSpecG_nil (g : List (entity × scene_graph_component))
    (s : transform_system) : recalcSpecG g s s [] :=
  ⟨rfl, fun x => ⟨fun h => absurd h (List.not_mem_nil x), fun _ => rfl⟩⟩

theorem recalcSpecG_trans {g : List (entity × scene_graph_component)}
    {s1 s2 s3 : transform_system} {vs1 vs2 : List entity}
    (h1 : recalcSpecG g s1 s2 vs1) (h2 : recalcSpecG g s2 s3 vs2) :
    recalcSpecG g s1 s3 (vs1 ++ vs2) := by
  refine ⟨h2.1.trans h1.1, ?_⟩
  intro x
  constructor
  · intro hx
    by_cases h2x : x ∈ vs2
    · exact (h2.2 x).1 h2x
    · have hx1 : x ∈ vs1 := by
        rcases List.mem_append.mp hx with h | h
        · exact h
        · exact absurd h h2x
      rw [(h2.2 x).2 h2x]
      exact (h1.2 x).1 hx1
  · intro hx
    have hx1 : x ∉ vs1 := fun h => hx (List.mem_append.mpr (Or.inl h))
    have hx2 : x ∉ vs2 := fun h => hx (List.mem_append.mpr (Or.inr h))
    rw [(h2.2 x).2 hx2]
    exact (h1.2 x).2 hx1

theorem parentsLive_sub {g : List (entity × scene_graph_component)}
    {vs vs' : List entity} (hsub : ∀ x ∈ vs', x ∈ vs)
    (h : parentsLive g vs = true) : parentsLive g vs' = true := by
  rw [parentsLive, List.all_eq_true] at h ⊢
  exact fun x hx => h x (hsub x hx)

theorem recalc_succ {fuel : Nat} {s : transform_system} {e : entity}
    {rec' : scene_graph_component}
    (hlook : mlookup s.scene_graph_transforms e = some rec')
    (hpar : rec'.parent = kInvalidEntity ∨
      (mlookup s.scene_graph_transforms rec'.parent).isSome) :
    transform_system.recalculate_world_transform (fuel + 1) s e =
      rec'.children.foldl
        (fun acc c => transform_system.recalculate_world_transform fuel acc c)
        ⟨s.scene_graph_transforms,
         minsert (transform_system.opIndexWT s.world_transforms e).2 e
           { (transform_system.opIndexWT s.world_transforms e).1 with
             world_pose := computePose s.scene_graph_transforms e }⟩ := by
  conv_lhs => rw [transform_system.recalculate_world_transform]
  simp only [transform_system.opIndexSG, hlook]
  by_cases hp : rec'.parent = kInvalidEntity
  · rw [if_neg (by simp [hp])]
    have hcp : computePose s.scene_graph_transforms e = rec'.local_pose := by
      unfold computePose
      simp [hlook, hp]
    rw [hcp]
  · have hps : (mlookup s.scene_graph_transforms rec'.parent).isSome := by
      rcases hpar with h | h
      · exact absurd h hp
      · exact h
    obtain ⟨prec, hplook⟩ := Option.isSome_iff_exists.mp hps
    rw [if_pos hp]
    simp only [transform_system.opIndexSG, hplook]
    have hcp : computePose s.scene_graph_transforms e =
        rec'.local_pose.comp prec.local_pose := by
      unfold computePose
      simp [hlook, hp, hplook]
    rw [hcp]

/-- Recomputing from the root of a matched, duplicate-free subtree
with enough fuel (and live-or-invalid parent fields throughout the
subtree) leaves the scene graph untouched, sets every subtree entity's
cached world pose to the recomputed pose, and leaves every other world
transform untouched. -/
theorem recalc_tree : ∀ (fuel : Nat) (t : STree) (s : transform_system),
    t.matchesB s.scene_graph_transforms = true →
    t.nodes.Nodup →
    parentsLive s.scene_graph_transforms t.nodes = true →
    t.height ≤ fuel →
    recalcSpecG s.scene_graph_transforms s
      (transform_system.recalculate_world_transform fuel s t.root) t.nodes := by
  intro fuel
  induction fuel with
  | zero =>
    intro t s _ _ _ hh
    exact absurd hh (by have := STree.height_pos t; omega)
  | succ n ih =>
    intro t s hm hnd hpl hh
    cases t with
    | node e kids =>
      rw [STree.matchesB_node_iff] at hm
      obtain ⟨rec', hlook, hch, hkids⟩ := hm
      rw [STree.nodes_node] at hnd hpl
      have hnd' := List.nodup_cons.mp hnd
      rw [STree.height_node] at hh
      have hparE : rec'.parent = kInvalidEntity ∨
          (mlookup s.scene_graph_transforms rec'.parent).isSome := by
        rw [parentsLive, List.all_eq_true] at hpl
        have := hpl e (List.mem_cons_self _ _)
        rw [Bool.or_eq_true, decide_eq_true_eq] at this
        rcases this with h | h
        · rw [hlook] at h
          exact Or.inl h
        · rw [hlook] at h
          exact Or.inr h
      have hroot : (STree.node e kids).root = e := rfl
      rw [hroot, recalc_succ hlook hparE, hch]
      have h0 : recalcSpecG s.scene_graph_transforms s
          ⟨s.scene_graph_transforms,
           minsert (transform_system.opIndexWT s.world_transforms e).2 e
             { (transform_system.opIndexWT s.world_transforms e).1 with
               world_pose := computePose s.scene_graph_transforms e }⟩ [e] := by
        refine ⟨rfl, ?_⟩
        intro x
        constructor
        · intro hx
          have hxe : x = e := by simpa using hx
          subst hxe
          simp [mlookup_minsert_self]
        · intro hx
          have hxe : x ≠ e := by simpa using hx
          show mlookup (minsert _ e _) x = _
          rw [mlookup_minsert_ne _ _ _ _ hxe]
          unfold transform_system.opIndexWT
          cases hw : mlookup s.world_transforms e with
          | none => simp only []; rw [mlookup_minsert_ne _ _ _ _ hxe]
          | some w => rfl
      have hfold : ∀ (ks : List STree) (s0 : transform_system),
          s0.scene_graph_transforms = s.scene_graph_transforms →
          STree.matchesListB ks s.scene_graph_transforms = true →
          (STree.nodesList ks).Nodup →
          parentsLive s.scene_graph_transforms (STree.nodesList ks) = true →
          STree.heightList ks ≤ n →
          recalcSpecG s.scene_graph_transforms s0
            ((ks.map STree.root).foldl
              (fun acc c => transform_system.recalculate_world_transform n acc c) s0)
            (STree.nodesList ks) := by
        intro ks
        induction ks with
        | nil =>
          intro s0 _ _ _ _ _
          rw [STree.nodesList_nil]
          simpa using recalcSpecG_nil s.scene_graph_transforms s0
        | cons k ks ihks =>
          intro s0 hsg0 hm0 hnd0 hpl0 hh0
          rw [List.map_cons, List.foldl_cons]
          rw [STree.nodesList_cons] at hnd0 hpl0 ⊢
          rw [STree.matchesListB_cons_iff] at hm0
          rw [STree.heightList_cons] at hh0
          have hna := List.nodup_append.mp hnd0
          have h1 : recalcSpecG s0.scene_graph_transforms s0
              (transform_system.recalculate_world_transform n s0 k.root) k.nodes :=
            ih k s0 (by rw [hsg0]; exact hm0.1) hna.1
              (by rw [hsg0]
                  exact parentsLive_sub
                    (fun x hx => List.mem_append.mpr (Or.inl hx)) hpl0)
              (by omega)
          rw [hsg0] at h1
          have hsg1 : (transform_system.recalculate_world_transform n s0 k.root).scene_graph_transforms =
              s.scene_graph_transforms := h1.1.trans hsg0
          have h2 := ihks (transform_system.recalculate_world_transform n s0 k.root)
            hsg1 hm0.2 hna.2.1
            (parentsLive_sub (fun x hx => List.mem_append.mpr (Or.inr hx)) hpl0)
            (by omega)
          exact recalcSpecG_trans h1 h2
      have h2 := hfold kids
        ⟨s.scene_graph_transforms,
         minsert (transform_system.opIndexWT s.world_transforms e).2 e
           { (transform_system.opIndexWT s.world_transforms e).1 with
             world_pose := computePose s.scene_graph_transforms e }⟩
        rfl hkids hnd'.2
        (parentsLive_sub (fun x hx => List.mem_cons_of_mem _ hx) hpl)
        (by omega)
      have h3 := recalcSpecG_trans h0 h2
      rw [STree.nodes_node]
      exact h3

/-! ## Claim C4 — transform_system::destroy -/

/-- C4: `destroy(e)` throws an invalid-argument error exactly when `e`
is the invalid sentinel or has no transform record; on success (for a
forest-shaped state, presented as a matched duplicate-free subtree `t`
rooted at the destroyed entity) it removes the scene-graph and
world-transform records of the root and of every descendant, and no
other entity's records change. -/
theorem c4_transform_destroy (s : transform_system) (t : STree)
    (hm : t.matchesB s.scene_graph_transforms = true)
    (hnd : t.nodes.Nodup) :
    (∀ e, (∃ err, transform_system.destroy s e = .error err) ↔
        (e = kInvalidEntity ∨ transform_system.has_transform s e = false)) ∧
    (∀ s', transform_system.destroy s t.root = .ok s' →
       ∀ x, (x ∈ t.nodes → transform_system.has_transform s' x = false ∧
               mlookup s'.scene_graph_transforms x = none ∧
               mlookup s'.world_transforms x = none) ∧
            (x ∉ t.nodes →
               mlookup s'.scene_graph_transforms x = mlookup s.scene_graph_transforms x ∧
               mlookup s'.world_transforms x = mlookup s.world_transforms x)) := by
  constructor
  · intro e
    by_cases h1 : e = kInvalidEntity
    · constructor
      · intro _
        exact Or.inl h1
      · intro _
        exact ⟨"parent was invalid", by simp [transform_system.destroy, h1]⟩
    · by_cases h2 : transform_system.has_transform s e
      · constructor
        · rintro ⟨err, herr⟩
          simp [transform_system.destroy, h1, h2] at herr
        · rintro (h | h)
          · exact absurd h h1
          · rw [h2] at h
            cases h
      · constructor
        · intro _
          refine Or.inr ?_
          simpa using h2
        · intro _
          exact ⟨"no component exists for this entity",
            by simp [transform_system.destroy, h1, h2]⟩
  · intro s' hok x
    unfold transform_system.destroy at hok
    by_cases h1 : t.root = kInvalidEntity
    · rw [if_pos h1] at hok
      cases hok
    · rw [if_neg h1] at hok
      have hht : transform_system.has_transform s t.root = true :=
        STree.matchesB_live hm t.root (STree.root_mem_nodes t)
      rw [if_neg (by simp [hht])] at hok
      have hs' : transform_system.destroy_recursive (transform_system.opFuel s) s t.root = s' := by
        cases hok
        rfl
      have hfuel : t.height ≤ transform_system.opFuel s := STree.height_le_opFuel hm hnd
      have hd := destroy_tree (transform_system.opFuel s) t s hm hnd hfuel
      rw [hs'] at hd
      constructor
      · intro hx
        have h := (hd x).1 hx
        exact ⟨by unfold transform_system.has_transform; simp [h.1], h.1, h.2⟩
      · intro hx
        exact (hd x).2 hx

/-- C4 witness: the theorem applied to the two-node chain 1 → 2 and
its matched subtree, with every hypothesis checked by evaluation. -/
theorem c4_transform_destroy_witness :
    (twoNodeTree.matchesB twoNodeSys.scene_graph_transforms = true ∧
     twoNodeTree.nodes.Nodup) ∧
    ((∀ e, (∃ err, transform_system.destroy twoNodeSys e = .error err) ↔
        (e = kInvalidEntity ∨ transform_system.has_transform twoNodeSys e = false)) ∧
     (∀ s', transform_system.destroy twoNodeSys twoNodeTree.root = .ok s' →
        ∀ x, (x ∈ twoNodeTree.nodes → transform_system.has_transform s' x = false ∧
                mlookup s'.scene_graph_transforms x = none ∧
                mlookup s'.world_transforms x = none) ∧
             (x ∉ twoNodeTree.nodes →
                mlookup s'.scene_graph_transforms x =
                  mlookup twoNodeSys.scene_graph_transforms x ∧
                mlookup s'.world_transforms x =
                  mlookup twoNodeSys.world_transforms x))) :=
  ⟨⟨by decide, by decide⟩,
   c4_transform_destroy twoNodeSys twoNodeTree (by decide) (by decide)⟩

/-! ## Claim C5 — transform_system::add_child -/

/-- C5: `add_child(parent, child)` throws an invalid-argument error
exactly when either argument is the invalid sentinel or lacks a
transform record.  When it succeeds (stated for states whose post-link
scene graph is a matched duplicate-free forest below `parent`, the
situation in which the C++ recursion terminates), it appends `child`
to the parent's children list, sets the child's parent field, leaves
every other scene-graph record unchanged, and recomputes the world
transforms of exactly the parent's subtree (every other world
transform unchanged). -/
theorem c5_add_child (s : transform_system) (parent child : entity)
    (prec crec : scene_graph_component) (t : STree)
    (hpar : mlookup s.scene_graph_transforms parent = some prec)
    (hch : mlookup s.scene_graph_transforms child = some crec)
    (hpc : parent ≠ child)
    (hpinv : parent ≠ kInvalidEntity) (hcinv : child ≠ kInvalidEntity)
    (hm : t.matchesB (linkedSG s.scene_graph_transforms parent child prec crec) = true)
    (hroot : t.root = parent)
    (hnd : t.nodes.Nodup)
    (hpl : parentsLive (linkedSG s.scene_graph_transforms parent child prec crec)
      t.nodes = true) :
    (∀ p c, (∃ err, transform_system.add_child s p c = .error err) ↔
        (p = kInvalidEntity ∨ c = kInvalidEntity ∨
         transform_system.has_transform s p = false ∨
         transform_system.has_transform s c = false)) ∧
    (∃ r, transform_system.add_child s parent child = .ok r ∧ r.2 = true ∧
      r.1.scene_graph_transforms = linkedSG s.scene_graph_transforms parent child prec crec ∧
      mlookup r.1.scene_graph_transforms parent =
        some { prec with children := prec.children ++ [child] } ∧
      mlookup r.1.scene_graph_transforms child = some { crec with parent := parent } ∧
      (∀ x, x ≠ parent → x ≠ child →
        mlookup r.1.scene_graph_transforms x = mlookup s.scene_graph_transforms x) ∧
      (∀ x ∈ t.nodes, (mlookup r.1.world_transforms x).map
          world_transform_component.world_pose =
        some (computePose (linkedSG s.scene_graph_transforms parent child prec crec) x)) ∧
      (∀ x, x ∉ t.nodes →
        mlookup r.1.world_transforms x = mlookup s.world_transforms x)) := by
  have h3 : transform_system.has_transform s parent = true := by
    unfold transform_system.has_transform
    simp [hpar]
  have h4 : transform_system.has_transform s child = true := by
    unfold transform_system.has_transform
    simp [hch]
  constructor
  · intro p c
    by_cases h1 : p = kInvalidEntity
    · constructor
      · intro _
        exact Or.inl h1
      · intro _
        exact ⟨"parent was invalid", by simp [transform_system.add_child, h1]⟩
    · by_cases h2 : c = kInvalidEntity
      · constructor
        · intro _
          exact Or.inr (Or.inl h2)
        · intro _
          exact ⟨"child was invalid", by simp [transform_system.add_child, h1, h2]⟩
      · by_cases h5 : transform_system.has_transform s p
        · by_cases h6 : transform_system.has_transform s c
          · constructor
            · rintro ⟨err, herr⟩
              simp [transform_system.add_child, h1, h2, h5, h6] at herr
            · rintro (h | h | h | h)
              · exact absurd h h1
              · exact absurd h h2
              · rw [h5] at h
                cases h
              · rw [h6] at h
                cases h
          · constructor
            · intro _
              refine Or.inr (Or.inr (Or.inr ?_))
              simpa using h6
            · intro _
              exact ⟨"child has no transform component",
                by simp [transform_system.add_child, h1, h2, h5, h6]⟩
        · constructor
          · intro _
            refine Or.inr (Or.inr (Or.inl ?_))
            simpa using h5
          · intro _
            exact ⟨"parent has no transform component",
              by simp [transform_system.add_child, h1, h2, h5]⟩
  · have hlk2 : mlookup (minsert s.scene_graph_transforms parent
        { prec with children := prec.children ++ [child] }) child = some crec := by
      rw [mlookup_minsert_ne _ _ _ _ (Ne.symm hpc)]
      exact hch
    have hok : transform_system.add_child s parent child = .ok
        (transform_system.recalculate_world_transform
          (transform_system.opFuel
            ⟨linkedSG s.scene_graph_transforms parent child prec crec,
             s.world_transforms⟩)
          ⟨linkedSG s.scene_graph_transforms parent child prec crec,
           s.world_transforms⟩ parent, true) := by
      unfold transform_system.add_child linkedSG
      rw [if_neg hpinv, if_neg hcinv, if_neg (by simp [h3]), if_neg (by simp [h4])]
      simp only [transform_system.opIndexSG, hpar, hlk2]
    have hfuel : t.height ≤ transform_system.opFuel
        ⟨linkedSG s.scene_graph_transforms parent child prec crec,
         s.world_transforms⟩ :=
      STree.height_le_opFuel hm hnd
    have hrt := recalc_tree
      (transform_system.opFuel
        ⟨linkedSG s.scene_graph_transforms parent child prec crec, s.world_transforms⟩)
      t ⟨linkedSG s.scene_graph_transforms parent child prec crec, s.world_transforms⟩
      hm hnd hpl hfuel
    rw [hroot] at hrt
    refine ⟨_, hok, rfl, hrt.1, ?_, ?_, ?_, ?_, ?_⟩
    · rw [hrt.1]
      show mlookup (linkedSG _ _ _ _ _) parent = _
      unfold linkedSG
      rw [mlookup_minsert_ne _ _ _ _ hpc, mlookup_minsert_self]
    · rw [hrt.1]
      show mlookup (linkedSG _ _ _ _ _) child = _
      unfold linkedSG
      rw [mlookup_minsert_self]
    · intro x hxp hxc
      rw [hrt.1]
      show mlookup (linkedSG _ _ _ _ _) x = _
      unfold linkedSG
      rw [mlookup_minsert_ne _ _ _ _ hxc, mlookup_minsert_ne _ _ _ _ hxp]
    · intro x hx
      exact (hrt.2 x).1 hx
    · intro x hx
      exact (hrt.2 x).2 hx

/-- C5 witness: the theorem applied to two root entities 1 and 2 being
linked by `add_child(1, 2)`, with every hypothesis checked by
evaluation. -/
theorem c5_add_child_witness :
    (mlookup twoRootSys.scene_graph_transforms 1 =
       some ⟨1, ⟨0, 5, 0⟩, Float3.zero, kInvalidEntity, []⟩ ∧
     mlookup twoRootSys.scene_graph_transforms 2 =
       some ⟨2, ⟨1, 0, 0⟩, Float3.zero, kInvalidEntity, []⟩ ∧
     (1 : entity) ≠ 2 ∧ (1 : entity) ≠ kInvalidEntity ∧ (2 : entity) ≠ kInvalidEntity ∧
     twoNodeTree.matchesB (linkedSG twoRootSys.scene_graph_transforms 1 2
       ⟨1, ⟨0, 5, 0⟩, Float3.zero, kInvalidEntity, []⟩
       ⟨2, ⟨1, 0, 0⟩, Float3.zero, kInvalidEntity, []⟩) = true ∧
     twoNodeTree.root = 1 ∧ twoNodeTree.nodes.Nodup ∧
     parentsLive (linkedSG twoRootSys.scene_graph_transforms 1 2
       ⟨1, ⟨0, 5, 0⟩, Float3.zero, kInvalidEntity, []⟩
       ⟨2, ⟨1, 0, 0⟩, Float3.zero, kInvalidEntity, []⟩) twoNodeTree.nodes = true) ∧
    ((∀ p c, (∃ err, transform_system.add_child twoRootSys p c = .error err) ↔
        (p = kInvalidEntity ∨ c = kInvalidEntity ∨
         transform_system.has_transform twoRootSys p = false ∨
         transform_system.has_transform twoRootSys c = false)) ∧
     (∃ r, transform_system.add_child twoRootSys 1 2 = .ok r ∧ r.2 = true ∧
       r.1.scene_graph_transforms = linkedSG twoRootSys.scene_graph_transforms 1 2
         ⟨1, ⟨0, 5, 0⟩, Float3.zero, kInvalidEntity, []⟩
         ⟨2, ⟨1, 0, 0⟩, Float3.zero, kInvalidEntity, []⟩ ∧
       mlookup r.1.scene_graph_transforms 1 =
         some ⟨1, ⟨0, 5, 0⟩, Float3.zero, kInvalidEntity, [] ++ [2]⟩ ∧
       mlookup r.1.scene_graph_transforms 2 =
         some ⟨2, ⟨1, 0, 0⟩, Float3.zero, 1, []⟩ ∧
       (∀ x, x ≠ 1 → x ≠ 2 →
         mlookup r.1.scene_graph_transforms x =
           mlookup twoRootSys.scene_graph_transforms x) ∧
       (∀ x ∈ twoNodeTree.nodes, (mlookup r.1.world_transforms x).map
           world_transform_component.world_pose =
         some (computePose (linkedSG twoRootSys.scene_graph_transforms 1 2
           ⟨1, ⟨0, 5, 0⟩, Float3.zero, kInvalidEntity, []⟩
           ⟨2, ⟨1, 0, 0⟩, Float3.zero, kInvalidEntity, []⟩) x)) ∧
       (∀ x, x ∉ twoNodeTree.nodes →
         mlookup r.1.world_transforms x = mlookup twoRootSys.world_transforms x))) :=
  ⟨⟨by decide, by decide, by decide, by decide, by decide, by decide, by decide,
    by decide, by decide⟩,
   c5_add_child twoRootSys 1 2
     ⟨1, ⟨0, 5, 0⟩, Float3.zero, kInvalidEntity, []⟩
     ⟨2, ⟨1, 0, 0⟩, Float3.zero, kInvalidEntity, []⟩ twoNodeTree
     (by decide) (by decide) (by decide) (by decide) (by decide) (by decide)
     (by decide) (by decide) (by decide)⟩

/-! ## Claim C1 — world transform of a grandchild -/

/-- C1: the code does NOT compute the full ancestor composition.  In
the three-deep chain 1 → 2 → 3 with local translations (0,5,0),
(1,0,0), (2,0,0), `recalculate_world_transform` composes entity 3's
local pose only with its immediate parent's LOCAL pose
(engine-ecs.cpp line 162), yielding world position (3,0,0), while the
claimed composition with all ancestors (outermost first) yields
(3,5,0).  This evaluates the embedded code at that failing input. -/
theorem c1_grandchild_world_pose_bug :
    (chain3_run.map (fun s => transform_system.get_world_transform s 3)) =
      some (some ⟨3, ⟨3, 0, 0⟩⟩) ∧
    Pose.comp (Pose.comp ⟨2, 0, 0⟩ ⟨1, 0, 0⟩) ⟨0, 5, 0⟩ = ⟨3, 5, 0⟩ ∧
    (⟨3, 0, 0⟩ : Pose) ≠ ⟨3, 5, 0⟩ := by
  refine ⟨by decide, by decide, by decide⟩

/-! ## Claim C2 — parent/children agreement after mutations -/

/-- C2: a second `create` on an already-present child breaks the
children/parent inverse invariant.  After `create(1)`, `create(2)`,
`add_child(1,2)`, `create(2)`, both entities still have transforms,
entity 2 is still listed in entity 1's children, but entity 2's parent
field was reset to `kInvalidEntity` (≠ 1): the lists and parent fields
disagree. -/
theorem c2_recreate_breaks_inverse_invariant :
    (recreate_run.map (fun s =>
      (transform_system.has_transform s 1, transform_system.has_transform s 2,
       (mlookup s.scene_graph_transforms 1).map scene_graph_component.children,
       (mlookup s.scene_graph_transforms 2).map scene_graph_component.parent))) =
      some (true, true, some [2], some kInvalidEntity) ∧
    kInvalidEntity ≠ (1 : entity) := by
  refine ⟨by decide, by decide⟩

/-! ## Claim C3 — material-major render list ordering -/

/-- `popsBefore` in a transparent form: `a` may be popped before `b`
exactly when `a`'s material id is smaller, or the ids agree and `a` is
at least as far from the culling view as `b`. -/
theorem popsBefore_iff (matId : entity → Nat) (dist : entity → ℚ) (a b : entity) :
    popsBefore matId dist a b ↔
      (matId a < matId b ∨ (matId a = matId b ∧ dist b ≤ dist a)) := by
  unfold popsBefore materialSortFunc
  by_cases hab : matId a = matId b
  · simp [hab]
  · rw [if_pos hab, decide_eq_false_iff_not, gt_iff_lt, not_lt]
    constructor
    · intro h
      exact Or.inl (lt_of_le_of_ne h hab)
    · intro h
      rcases h with h | h
      · exact le_of_lt h
      · exact absurd h.1 hab

/-- C3 counterexample: with two renderables of the same material at
distances 1 and 5, the flattened material render list is `[2, 1]` —
the FARTHER entity first — so within a material group the popped order
is distance-descending, not ascending as claimed. -/
theorem c3_counterexample_distance_descending :
    materialRenderList sameMatId twoDist [1, 2] = [2, 1] ∧
    sameMatId 2 = sameMatId 1 ∧ twoDist 1 < twoDist 2 ∧
    ¬ List.Pairwise (fun a b => sameMatId a = sameMatId b → twoDist a ≤ twoDist b)
        (materialRenderList sameMatId twoDist [1, 2]) := by
  refine ⟨by decide, by decide, by decide, by decide⟩

/-- C3 amended: the flattened `materialRenderList` contains exactly
the entities of the render set; material ids appear in ascending order
(hence all entities sharing a material id are contiguous), and within
a material group the entities are ordered by distance from the culling
view position DESCENDING. -/
theorem c3_amended_material_major_order (matId : entity → Nat) (dist : entity → ℚ)
    (render_set : List entity) :
    (materialRenderList matId dist render_set).Perm render_set ∧
    List.Pairwise (fun a b => matId a ≤ matId b ∧ (matId a = matId b → dist b ≤ dist a))
      (materialRenderList matId dist render_set) := by
  constructor
  · exact List.perm_insertionSort (popsBefore matId dist) render_set
  · haveI htot : IsTotal entity (popsBefore matId dist) := by
      constructor
      intro a b
      rw [popsBefore_iff, popsBefore_iff]
      rcases lt_trichotomy (matId a) (matId b) with h | h | h
      · exact Or.inl (Or.inl h)
      · rcases le_total (dist b) (dist a) with hd | hd
        · exact Or.inl (Or.inr ⟨h, hd⟩)
        · exact Or.inr (Or.inr ⟨h.symm, hd⟩)
      · exact Or.inr (Or.inl h)
    haveI htrans : IsTrans entity (popsBefore matId dist) := by
      constructor
      intro a b c hab hbc
      rw [popsBefore_iff] at hab hbc ⊢
      rcases hab with h1 | ⟨h1, d1⟩ <;> rcases hbc with h2 | ⟨h2, d2⟩
      · exact Or.inl (h1.trans h2)
      · exact Or.inl (h2 ▸ h1)
      · exact Or.inl (h1 ▸ h2)
      · exact Or.inr ⟨h1.trans h2, le_trans d2 d1⟩
    have hs : List.Sorted (popsBefore matId dist)
        (List.insertionSort (popsBefore matId dist) render_set) :=
      List.sorted_insertionSort (popsBefore matId dist) render_set
    refine List.Pairwise.imp ?_ hs
    intro a b hab
    rw [popsBefore_iff] at hab
    rcases hab with h | ⟨h, hd⟩
    · exact ⟨le_of_lt h, fun he => absurd he (ne_of_lt h)⟩
    · exact ⟨le_of_eq h, fun _ => hd⟩

/-! ## Claim C6 — create type-dispatch across the systems -/

/-- C6 counterexample: the claim says every system's typeid `create`
returns `false` for an unowned type id, but
`transform_system::create(entity, poly_typeid, void*)` and
`pbr_render_system::create` both return `true` for the type id 999,
which neither system registered for. -/
theorem c6_create_accepts_unowned_type :
    (transform_system.create_typeid emptyTS 5 999).2 = true ∧
    999 ≠ scene_graph_component_tid ∧ 999 ≠ world_transform_component_tid ∧
    (pbr_render_system.create oneCamSys 5 999).2 = true ∧
    999 ≠ mesh_component_tid ∧ 999 ≠ material_component_tid ∧
    999 ≠ point_light_component_tid ∧ 999 ≠ directional_light_component_tid := by
  refine ⟨by decide, by decide, by decide, by decide, by decide, by decide, by decide, by decide⟩

/-- C6 amended: `ex_system_one` and `ex_system_two` accept exactly
their owned type id (storing the payload and returning `true`,
rejecting every other id with `false` and no state change), while the
typeid overload of `transform_system::create` and
`pbr_render_system::create` return `true` unconditionally and store
nothing. -/
theorem c6_amended_create_dispatch (s1 : ex_system_one) (s2 : ex_system_two)
    (ts : transform_system) (r : pbr_render_system) (e : entity) (h : Nat)
    (d1 : physics_component) (d2 : render_component) :
    ex_system_one.create s1 e h d1 =
      (if h = physics_component_tid then (⟨minsert s1.components e d1⟩, true)
       else (s1, false)) ∧
    ex_system_two.create s2 e h d2 =
      (if h = render_component_tid then (⟨minsert s2.components e d2⟩, true)
       else (s2, false)) ∧
    transform_system.create_typeid ts e h = (ts, true) ∧
    pbr_render_system.create r e h = (r, true) := by
  refine ⟨?_, ?_, rfl, rfl⟩
  · unfold ex_system_one.create
    by_cases hh : h = physics_component_tid <;> simp [hh]
  · unfold ex_system_two.create
    by_cases hh : h = render_component_tid <;> simp [hh]

/-! ## Claim C7 — texture query index assertion -/

/-- C7: the assertion in `get_color_texture` / `get_depth_texture` is
`idx <= settings.cameraCount` (part_000 lines 158 and 168), so the
out-of-range index `idx = cameraCount` PASSES the assertion and the
code reads one element past the end of the texture vectors (undefined
behaviour), contradicting the claim that every `idx ≥ cameraCount`
fails the assertion.  Evaluated on a one-camera system whose texture
vectors have the constructor-guaranteed length `cameraCount`. -/
theorem c7_texture_query_assert_off_by_one :
    oneCamSys.settings.cameraCount = 1 ∧
    oneCamSys.postTextures.length = 1 ∧
    oneCamSys.eyeDepthTextures.length = 1 ∧
    (pbr_render_system.get_color_texture oneCamSys 1).assertOk = true ∧
    (pbr_render_system.get_color_texture oneCamSys 1).value = none ∧
    (pbr_render_system.get_depth_texture oneCamSys 1).assertOk = true ∧
    (pbr_render_system.get_depth_texture oneCamSys 1).value = none ∧
    (pbr_render_system.get_color_texture oneCamSys 2).assertOk = false ∧
    (pbr_render_system.get_color_texture oneCamSys 0).assertOk = true ∧
    (pbr_render_system.get_color_texture oneCamSys 0).value = some 42 := by
  refine ⟨rfl, rfl, rfl, by decide, by decide, by decide, by decide, by decide, by decide, by decide⟩

/-! ## Claim C8 — cascade split planes -/

theorem mix_lt_mix {a a' b b' t : ℝ} (ha : a < a') (hb : b < b')
    (h0 : 0 ≤ t) (h1 : t ≤ 1) : mix a b t < mix a' b' t := by
  unfold mix
  rcases le_total (a' - a) (b' - b) with h | h
  · nlinarith
  · nlinarith

theorem splitAt_zero {near far lam : ℝ} {N : Nat} :
    splitAt near far lam N 0 = near := by
  unfold splitAt linearSplit logSplit mix
  simp [Real.rpow_zero]

theorem splitAt_top {near far lam : ℝ} {N : Nat} (hN : 1 ≤ N) (hnear : near ≠ 0) :
    splitAt near far lam N N = far := by
  have hN0 : ((N : ℝ)) ≠ 0 := Nat.cast_ne_zero.mpr (by omega)
  unfold splitAt linearSplit logSplit mix
  rw [div_self hN0, Real.rpow_one, mul_div_assoc']
  rw [mul_comm near far, mul_div_assoc, div_self hnear]
  ring

theorem splitAt_strictMono {near far lam : ℝ} {N : Nat} (hN : 1 ≤ N)
    (hnear : 0 < near) (hnf : near < far) (hl0 : 0 ≤ lam) (hl1 : lam ≤ 1) :
    StrictMono (fun k => splitAt near far lam N k) := by
  have hNpos : 0 < N := hN
  have hN0 : (0 : ℝ) < (N : ℝ) := by exact_mod_cast hNpos
  apply strictMono_nat_of_lt_succ
  intro k
  have hk : ((k : ℝ)) / (N : ℝ) < (((k + 1 : Nat)) : ℝ) / (N : ℝ) := by
    rw [div_lt_div_iff_of_pos_right hN0]
    push_cast
    linarith
  apply mix_lt_mix _ _ hl0 hl1
  · unfold linearSplit
    have := mul_lt_mul_of_pos_right hk (sub_pos.mpr hnf)
    linarith
  · unfold logSplit
    apply mul_lt_mul_of_pos_left _ hnear
    have hq : 1 < far / near := (one_lt_div hnear).mpr hnf
    rw [Real.rpow_lt_rpow_left_iff hq]
    exact hk

/-- C8: with `0 < near < far` and `splitLambda ∈ [0,1]`, the
`splitPlanes` list has length `NUM_CASCADES`; cascade 0 starts at the
camera near plane and the last cascade ends at the camera far plane;
every cascade has `near < far`; each interior split is the
`mix(linear, log, lambda)` blend; and consecutive cascades tile the
range (`splitFar C = splitNear (C+1)`), so the ranges are
non-decreasing in the cascade index. -/
theorem c8_update_cascades_splits (N : Nat) (near far lam : ℝ)
    (hN : 1 ≤ N) (hnear : 0 < near) (hnf : near < far)
    (hl0 : 0 ≤ lam) (hl1 : lam ≤ 1) :
    (update_cascades_splitPlanes near far lam N).length = N ∧
    (∀ C, C < N → (update_cascades_splitPlanes near far lam N).get? C =
        some (splitNearC near far lam N C, splitFarC near far lam N C)) ∧
    splitNearC near far lam N 0 = near ∧
    splitFarC near far lam N (N - 1) = far ∧
    (∀ C, C < N → splitNearC near far lam N C < splitFarC near far lam N C) ∧
    (∀ C, 0 < C → C < N → splitNearC near far lam N C =
        mix (linearSplit near far N C) (logSplit near far N C) lam) ∧
    (∀ C, C + 1 < N → splitFarC near far lam N C = splitNearC near far lam N (C + 1)) := by
  have hsm : StrictMono (fun k => splitAt near far lam N k) :=
    splitAt_strictMono hN hnear hnf hl0 hl1
  have hz : splitAt near far lam N 0 = near := splitAt_zero
  have ht : splitAt near far lam N N = far := splitAt_top hN hnear.ne'
  refine ⟨?_, ?_, ?_, ?_, ?_, ?_, ?_⟩
  · simp [update_cascades_splitPlanes]
  · intro C hC
    simp [update_cascades_splitPlanes, List.getElem?_map, List.getElem?_range, hC]
  · simp [splitNearC]
  · simp [splitFarC]
  · intro C hC
    unfold splitNearC splitFarC
    by_cases h0C : 0 < C
    · by_cases hCl : C < N - 1
      · simp only [h0C, if_true, hCl]
        exact hsm (Nat.lt_succ_self C)
      · simp only [h0C, if_true, hCl, if_false]
        calc splitAt near far lam N C < splitAt near far lam N N := hsm (by omega)
          _ = far := ht
    · have hC0 : C = 0 := by omega
      subst hC0
      simp only [if_neg h0C]
      by_cases hCl : 0 < N - 1
      · simp only [hCl, if_true]
        calc near = splitAt near far lam N 0 := hz.symm
          _ < splitAt near far lam N 1 := hsm (by omega)
      · simp only [hCl, if_false]
        exact hnf
  · intro C hC0 hCN
    simp only [splitNearC, hC0, if_true]
    rfl
  · intro C hC
    have h1 : C < N - 1 := by omega
    have h2 : 0 < C + 1 := by omega
    simp only [splitFarC, h1, if_true, splitNearC, h2]

/-- C8 witness: the theorem applied at `NUM_CASCADES = 4`,
`near = 1`, `far = 2`, `splitLambda = 1/2`. -/
theorem c8_update_cascades_splits_witness :
    ((1 : Nat) ≤ 4 ∧ (0 : ℝ) < 1 ∧ (1 : ℝ) < 2 ∧ (0 : ℝ) ≤ 1/2 ∧ (1/2 : ℝ) ≤ 1) ∧
    ((update_cascades_splitPlanes 1 2 (1/2) 4).length = 4 ∧
     (∀ C, C < 4 → (update_cascades_splitPlanes 1 2 (1/2) 4).get? C =
         some (splitNearC 1 2 (1/2) 4 C, splitFarC 1 2 (1/2) 4 C)) ∧
     splitNearC 1 2 (1/2) 4 0 = 1 ∧
     splitFarC 1 2 (1/2) 4 (4 - 1) = 2 ∧
     (∀ C, C < 4 → splitNearC 1 2 (1/2) 4 C < splitFarC 1 2 (1/2) 4 C) ∧
     (∀ C, 0 < C → C < 4 → splitNearC 1 2 (1/2) 4 C =
         mix (linearSplit 1 2 4 C) (logSplit 1 2 4 C) (1/2)) ∧
     (∀ C, C + 1 < 4 → splitFarC 1 2 (1/2) 4 C = splitNearC 1 2 (1/2) 4 (C + 1))) :=
  ⟨⟨by norm_num, by norm_num, by norm_num, by norm_num, by norm_num⟩,
   c8_update_cascades_splits 4 1 2 (1/2) (by norm_num) (by norm_num) (by norm_num)
     (by norm_num) (by norm_num)⟩

/-! ## Claim C9 — pbr_render_system::destroy -/

/-- C9: `destroy(kAllEntities)` empties all four component maps, and
`destroy(e)` for any other entity leaves the whole system (in
particular all four maps) unchanged. -/
theorem c9_pbr_destroy (r : pbr_render_system) (e : entity) (h : e ≠ kAllEntities) :
    (pbr_render_system.destroy r kAllEntities).meshes = [] ∧
    (pbr_render_system.destroy r kAllEntities).materials = [] ∧
    (pbr_render_system.destroy r kAllEntities).point_lights = [] ∧
    (pbr_render_system.destroy r kAllEntities).directional_lights = [] ∧
    pbr_render_system.destroy r e = r := by
  refine ⟨?_, ?_, ?_, ?_, ?_⟩ <;> simp [pbr_render_system.destroy, h]

/-- C9 witness: the theorem applied to a system holding one component
of each kind and the ordinary entity 5. -/
theorem c9_pbr_destroy_witness :
    (5 : entity) ≠ kAllEntities ∧
    ((pbr_render_system.destroy oneOfEachSys kAllEntities).meshes = [] ∧
     (pbr_render_system.destroy oneOfEachSys kAllEntities).materials = [] ∧
     (pbr_render_system.destroy oneOfEachSys kAllEntities).point_lights = [] ∧
     (pbr_render_system.destroy oneOfEachSys kAllEntities).directional_lights = [] ∧
     pbr_render_system.destroy oneOfEachSys 5 = oneOfEachSys) :=
  ⟨by decide, c9_pbr_destroy oneOfEachSys 5 (by decide)⟩

/-! ## Claim C10 — read queries on absent entities -/

/-- C10: for an entity with no records the read queries are total and
negative: `has_transform` is `false`, `get_world_transform` and
`get_local_transform` are null, `get_parent` is the invalid sentinel.
(Each query is embedded as a pure function of the state — the C++
bodies use `find` only and mutate nothing.) -/
theorem c10_queries_absent (s : transform_system) (e : entity)
    (hsg : mlookup s.scene_graph_transforms e = none)
    (hwt : mlookup s.world_transforms e = none) :
    transform_system.has_transform s e = false ∧
    transform_system.get_world_transform s e = none ∧
    transform_system.get_local_transform s e = none ∧
    transform_system.get_parent s e = kInvalidEntity := by
  unfold transform_system.has_transform transform_system.get_world_transform
    transform_system.get_local_transform transform_system.get_parent
  by_cases he : e = kInvalidEntity
  · subst he; simp [hsg, hwt]
  · simp [he, hsg, hwt]

/-- C10 witness: the theorem applied to the fresh system and entity 7. -/
theorem c10_queries_absent_witness :
    (mlookup emptyTS.scene_graph_transforms 7 = none ∧
     mlookup emptyTS.world_transforms 7 = none) ∧
    (transform_system.has_transform emptyTS 7 = false ∧
     transform_system.get_world_transform emptyTS 7 = none ∧
     transform_system.get_local_transform emptyTS 7 = none ∧
     transform_system.get_parent emptyTS 7 = kInvalidEntity) :=
  ⟨⟨by decide, by decide⟩, c10_queries_absent emptyTS 7 (by decide) (by decide)⟩

end Polymer
